import Mathlib

/-!
Verification of the founders podcast knowledge-graph pipeline.

Shallow embedding of the cross-episode linker and the search/relevance
engine (`scripts/comprehensive-graph-extraction.ts`, the search engine
module) together with the episode id-mapper
(`scripts/parse_episodes_nodejs.ts`).  JavaScript numbers are modelled as
rationals, strings as Lean strings over their character lists, and the
`Map` used for deduplication as an association list in insertion order.
-/

namespace Founders

/-- JS `String.prototype.toLowerCase`, modelled character-wise. -/
def lowerStr (s : String) : String := ⟨s.data.map Char.toLower⟩

/-- JS `String.prototype.includes` on character lists: `pat` occurs as a
contiguous substring of `text`.  The empty pattern occurs in every string. -/
def listIncludes : List Char → List Char → Bool
  | [], pat => pat.isEmpty
  | c :: ts, pat => pat.isPrefixOf (c :: ts) || listIncludes ts pat

/-- JS `String.prototype.includes` on strings. -/
def strIncludes (text pat : String) : Bool := listIncludes text.data pat.data

/-- JS `String.prototype.split(' ')` helper: accumulate the current word
(reversed) and cut at every single space. -/
def splitOnSpaceAux : List Char → List Char → List String
  | [], acc => [⟨acc.reverse⟩]
  | c :: cs, acc =>
    if c = ' ' then ⟨acc.reverse⟩ :: splitOnSpaceAux cs [] else splitOnSpaceAux cs (c :: acc)

/-- JS `String.prototype.split(' ')`: always non-empty, keeps empty chunks. -/
def splitOnSpace (s : String) : List String := splitOnSpaceAux s.data []

/-- Fuel-driven scan counting leftmost non-overlapping occurrences of a
non-empty pattern, as the global regex match in the scorer does. -/
def countOccAux : Nat → List Char → List Char → Nat
  | 0, _, _ => 0
  | _ + 1, [], _ => 0
  | fuel + 1, c :: ts, pat =>
    if pat.isPrefixOf (c :: ts) then 1 + countOccAux fuel ((c :: ts).drop pat.length) pat
    else countOccAux fuel ts pat

/-- Literal-substring reading of `text.match(new RegExp(pat, 'g'))`: an
empty pattern matches at every position (length + 1 times), a non-empty
pattern is counted by a leftmost non-overlapping scan.  The source builds
the regex from the raw lowercased query, so this literal count agrees with
the program exactly when the query contains no regex metacharacters; a
query using the `.` wildcard is counted by `countRegexDot` below instead,
and a query that is not a valid regex (such as `c++`) makes the `RegExp`
constructor throw before any count is taken. -/
def countOccur (text pat : List Char) : Nat :=
  match pat with
  | [] => text.length + 1
  | _ :: _ => countOccAux text.length text pat

/-- One pattern position of the wildcard fragment of JS regex: `.` matches
every character except a line terminator, any other character only itself
(character classes, groups, quantifiers, escapes and anchors are outside
this fragment). -/
def dotAtomMatch (p c : Char) : Bool :=
  if p == '.' then !(c == '\n' || c == '\r') else p == c

/-- Whether the wildcard-fragment pattern matches a prefix of the text. -/
def dotPatIsPrefixOf : List Char → List Char → Bool
  | [], _ => true
  | _ :: _, [] => false
  | p :: ps, c :: cs => dotAtomMatch p c && dotPatIsPrefixOf ps cs

/-- The leftmost non-overlapping scan of `countOccAux`, with the wildcard
fragment in place of literal prefix matching. -/
def countRegexDotAux : Nat → List Char → List Char → Nat
  | 0, _, _ => 0
  | _ + 1, [], _ => 0
  | fuel + 1, c :: ts, pat =>
    if dotPatIsPrefixOf pat (c :: ts) then
      1 + countRegexDotAux fuel ((c :: ts).drop pat.length) pat
    else countRegexDotAux fuel ts pat

/-- Number of matches of `text.match(new RegExp(pat, 'g'))` for patterns
inside the wildcard fragment: what the program actually counts when the
query contains `.`. -/
def countRegexDot (text pat : List Char) : Nat :=
  match pat with
  | [] => text.length + 1
  | _ :: _ => countRegexDotAux text.length text pat

/-- JS `Math.round`: round half toward positive infinity. -/
def jsRound (q : ℚ) : ℚ := ((⌊q + 1/2⌋ : ℤ) : ℚ)

/-- Lexicographic code-unit comparison, as JS string `<` and the default
`Array.prototype.sort` comparator use. -/
def listLtChar : List Char → List Char → Bool
  | [], [] => false
  | [], _ :: _ => true
  | _ :: _, [] => false
  | a :: as, b :: bs => if a < b then true else if b < a then false else listLtChar as bs

/-- JS `String.prototype.substring` for in-range nonnegative indices. -/
def jsSubstring (s : String) (start endPos : Nat) : String :=
  ⟨(s.data.drop start).take (endPos - start)⟩

/-! ## Data model (`comprehensive-graph-extraction.ts` interfaces) -/

/-- `Entity` record of the extraction pipeline. -/
structure Entity where
  id : String
  episode_id : String
  name : String
  type : String
  context : String
  amazon_searchable : Bool
  amazon_keywords : Option (List String)
  confidence_score : ℚ
  deriving DecidableEq, Repr

/-- `Relationship` record of the extraction pipeline. -/
structure Relationship where
  id : String
  episode_id : String
  entity1_id : String
  entity1_name : String
  entity2_id : String
  entity2_name : String
  relationship_type : String
  description : String
  confidence_score : ℚ
  is_cross_episode : Bool
  deriving DecidableEq, Repr

/-- `EpisodeData`: one episode's extraction result. -/
structure EpisodeData where
  episode_id : String
  episode_title : String
  episode_number : Option Nat
  date : Option String
  url : Option String
  entities : List Entity
  relationships : List Relationship
  extracted_by : String
  extracted_at : String
  deriving DecidableEq, Repr

/-- `CrossEpisodeRelationship`: a linker output record. -/
structure CrossEpisodeRelationship where
  id : String
  episode1_id : String
  episode1_title : String
  episode2_id : String
  episode2_title : String
  shared_entities : List String
  relationship_strength : ℚ
  common_themes : List String
  deriving DecidableEq, Repr

/-! ## Cross-episode linker -/

/-- Type weight used by `calculateRelationshipStrength`'s switch. -/
def typeWeight (t : String) : ℚ :=
  if t = "person" then 3
  else if t = "place" then 5/2
  else if t = "product" then 2
  else if t = "media" then 3/2
  else 1

/-- `findSharedEntities`: an entity of the first episode is kept when some
entity of the second has a case-insensitively equal name and an equal type
(the inner loop breaks after the first hit, so each left entity is pushed
at most once). -/
def findSharedEntities (entities1 entities2 : List Entity) : List Entity :=
  entities1.filter fun e1 =>
    entities2.any fun e2 => lowerStr e1.name == lowerStr e2.name && e1.type == e2.type

/-- `calculateRelationshipStrength`: weighted shared count scaled by the
larger episode's entity count, doubled, clamped at 1. -/
def calculateRelationshipStrength (sharedEntities : List Entity) (ep1 ep2 : EpisodeData) : ℚ :=
  let totalEntities1 := ep1.entities.length
  let totalEntities2 := ep2.entities.length
  let weightedScore := (sharedEntities.map fun e => typeWeight e.type).sum
  min 1 (weightedScore / ((max totalEntities1 totalEntities2 : ℕ) : ℚ) * 2)

/-- `Set.add` on an insertion-ordered list: append if not yet present. -/
def addTheme (acc : List String) (t : String) : List String :=
  if acc.contains t then acc else acc ++ [t]

/-- `extractCommonThemes`: heuristic theme tags from the shared entities,
deduplicated in insertion order (the JS `Set`). -/
def extractCommonThemes (sharedEntities : List Entity) : List String :=
  sharedEntities.foldl
    (fun acc e =>
      let acc := if e.type = "person" then addTheme acc "Entrepreneurship" else acc
      let acc := if e.type = "place" && listIncludes e.context.data "company".data then
          addTheme acc "Business Strategy" else acc
      let acc := if e.type = "product" then addTheme acc "Product Development" else acc
      let acc := if e.type = "media" && listIncludes e.context.data "book".data then
          addTheme acc "Business Literature" else acc
      if e.amazon_searchable then addTheme acc "Recommended Products" else acc)
    []

/-- The `CrossEpisodeRelationship` record pushed by the linker for one pair. -/
def crossRecord (ep1 ep2 : EpisodeData) (shared : List Entity) (strength : ℚ) :
    CrossEpisodeRelationship :=
  { id := "cross_" ++ ep1.episode_id ++ "_" ++ ep2.episode_id
    episode1_id := ep1.episode_id
    episode1_title := ep1.episode_title
    episode2_id := ep2.episode_id
    episode2_title := ep2.episode_title
    shared_entities := shared.map fun e => e.name
    relationship_strength := strength
    common_themes := extractCommonThemes shared }

/-- Body of the linker's inner loop for the pair `(ep1, ep2)`: a record is
produced when the shared set is non-empty and the strength exceeds `0.3`. -/
def crossRelFor (ep1 ep2 : EpisodeData) : Option CrossEpisodeRelationship :=
  let shared := findSharedEntities ep1.entities ep2.entities
  if shared.length > 0 then
    let strength := calculateRelationshipStrength shared ep1 ep2
    if strength > 3/10 then some (crossRecord ep1 ep2 shared strength) else none
  else none

/-- `detectCrossEpisodeRelationships`: the double loop over index pairs
`i < j` in input order. -/
def detectCrossEpisodeRelationships : List EpisodeData → List CrossEpisodeRelationship
  | [] => []
  | ep :: rest => rest.filterMap (crossRelFor ep) ++ detectCrossEpisodeRelationships rest

/-- The record `crossRelFor` would build for a pair, written out from the
pair's own data. -/
def crossRecordOf (ep1 ep2 : EpisodeData) : CrossEpisodeRelationship :=
  crossRecord ep1 ep2 (findSharedEntities ep1.entities ep2.entities)
    (calculateRelationshipStrength (findSharedEntities ep1.entities ep2.entities) ep1 ep2)


/-! ## Episode id-mapper (`parse_episodes_nodejs.ts`) -/

/-- JS `\w` without the unicode flag: ASCII letters, digits, underscore. -/
def isWordChar (c : Char) : Bool :=
  (('a' ≤ c && c ≤ 'z') || ('A' ≤ c && c ≤ 'Z') || ('0' ≤ c && c ≤ '9') || c = '_')

/-- JS `\s` for the whitespace the titles contain. -/
def isSpaceChar (c : Char) : Bool :=
  c = ' ' || c = '\t' || c = '\n' || c = '\r'

/-- `.replace(/\s+/g, ' ')` helper: the flag records whether the current
position is inside a whitespace run whose single space is already emitted. -/
def collapseSpacesAux : Bool → List Char → List Char
  | _, [] => []
  | inRun, c :: cs =>
    if isSpaceChar c then
      if inRun then collapseSpacesAux true cs else ' ' :: collapseSpacesAux true cs
    else c :: collapseSpacesAux false cs

/-- `.replace(/\s+/g, ' ')`: collapse every whitespace run to one space. -/
def collapseSpaces (l : List Char) : List Char := collapseSpacesAux false l

/-- `.trim()`: strip leading and trailing whitespace. -/
def trimChars (l : List Char) : List Char :=
  ((l.dropWhile isSpaceChar).reverse.dropWhile isSpaceChar).reverse

/-- `normalizeTitle`: lowercase, drop every character that is neither a
word character nor whitespace, collapse whitespace runs, trim. -/
def normalizeTitle (title : String) : String :=
  ⟨trimChars (collapseSpaces (((lowerStr title).data.filter
    fun c => isWordChar c || isSpaceChar c)))⟩

/-- The mapper's three lookup tables, loaded from previous runs. -/
structure IdMaps where
  episodeNumberToId : List (Nat × String)
  urlToId : List (String × String)
  titleToId : List (String × String)
  deriving DecidableEq, Repr

/-- The episode input of the id-mapper. -/
structure ParsedEpisode where
  title : String
  episode_number : Option Nat
  date : Option String
  url : Option String
  deriving DecidableEq, Repr

/-- Priority-1 lookup: `episode.episode_number && map.has(n)` (JS truthiness,
so an episode number of `0` skips the lookup). -/
def numHit (m : IdMaps) (ep : ParsedEpisode) : Option String :=
  match ep.episode_number with
  | none => none
  | some n => if n = 0 then none else m.episodeNumberToId.lookup n

/-- Priority-2 lookup: `episode.url && map.has(url)` (an empty URL is falsy). -/
def urlHit (m : IdMaps) (ep : ParsedEpisode) : Option String :=
  match ep.url with
  | none => none
  | some u => if u = "" then none else m.urlToId.lookup u

/-- Priority-3 lookup on the normalized title. -/
def titleHit (m : IdMaps) (ep : ParsedEpisode) : Option String :=
  m.titleToId.lookup (normalizeTitle ep.title)

/-- `findOrCreateEpisodeId`: try episode number, then URL, then normalized
title; only when all three miss, return the freshly generated id (the
`uuidv4`/clock-based `generateEpisodeId` output is passed in as `newId`)
and cache it in the three maps. -/
def findOrCreateEpisodeId (m : IdMaps) (ep : ParsedEpisode) (newId : String) :
    String × IdMaps :=
  match numHit m ep with
  | some existingId => (existingId, m)
  | none =>
    match urlHit m ep with
    | some existingId => (existingId, m)
    | none =>
      match titleHit m ep with
      | some existingId => (existingId, m)
      | none =>
        (newId,
          { episodeNumberToId :=
              match ep.episode_number with
              | some n => if n = 0 then m.episodeNumberToId else (n, newId) :: m.episodeNumberToId
              | none => m.episodeNumberToId
            urlToId :=
              match ep.url with
              | some u => if u = "" then m.urlToId else (u, newId) :: m.urlToId
              | none => m.urlToId
            titleToId := (normalizeTitle ep.title, newId) :: m.titleToId })

/-! ## Ingestion (`processExtractedEntities`) -/

/-- Raw entity payload from the model response; absent string fields are
the empty string (JS `undefined` and `''` are both falsy and are treated
alike downstream), an absent confidence is `none`. -/
structure RawEntity where
  name : String
  type : String
  context : String
  amazon_searchable : Bool
  amazon_keywords : Option (List String)
  confidence_score : Option ℚ
  deriving DecidableEq, Repr

/-- Raw relationship payload from the model response. -/
structure RawRelationship where
  entity1_name : String
  entity2_name : String
  relationship_type : String
  description : String
  confidence_score : Option ℚ
  deriving DecidableEq, Repr

/-- The parsed extraction response. -/
structure ExtractedData where
  entities : List RawEntity
  relationships : List RawRelationship
  deriving DecidableEq, Repr

/-- `createEntityId`: type, lowercased alphanumeric-only name, first eight
characters of the episode id. -/
def createEntityId (name ty episodeId : String) : String :=
  let normalized : String := ⟨(lowerStr name).data.filter fun c => ('a' ≤ c && c ≤ 'z') || ('0' ≤ c && c ≤ '9')⟩
  ty ++ "_" ++ normalized ++ "_" ++ jsSubstring episodeId 0 8

/-- `createRelationshipId`; the random `uuidv4` suffix is passed in, and
`[id1, id2].sort()` swaps the pair exactly when the second id compares
smaller. -/
def createRelationshipId (entity1Id entity2Id uuid : String) : String :=
  let sorted :=
    if listLtChar entity2Id.data entity1Id.data then (entity2Id, entity1Id)
    else (entity1Id, entity2Id)
  "rel_" ++ sorted.1 ++ "_" ++ sorted.2 ++ "_" ++ jsSubstring uuid 0 8

/-- `findEntityId`: case-insensitive name lookup among one episode's
entities, returning the id of the first hit. -/
def findEntityId (entityName : String) (entities : List Entity) : Option String :=
  (entities.find? fun e => lowerStr e.name == lowerStr entityName).map fun e => e.id

/-- The `Entity` record built for an accepted payload: absent context,
searchable flag and keywords default, and a falsy confidence score
(absent or `0`) becomes `0.8`. -/
def mkEntity (entityData : RawEntity) (episodeId : String) : Entity :=
  { id := createEntityId entityData.name entityData.type episodeId
    episode_id := episodeId
    name := entityData.name
    type := entityData.type
    context := entityData.context
    amazon_searchable := entityData.amazon_searchable
    amazon_keywords := entityData.amazon_keywords
    confidence_score :=
      match entityData.confidence_score with
      | none => 8/10
      | some c => if c = 0 then 8/10 else c }

/-- Entity half of `processExtractedEntities`: payloads with a falsy name
or type are skipped (`continue`), the rest become `Entity` records. -/
def processEntities (extracted : ExtractedData) (episodeId : String) : List Entity :=
  extracted.entities.filterMap fun entityData =>
    if entityData.name = "" || entityData.type = "" then none
    else some (mkEntity entityData episodeId)

/-- Relationship half of `processExtractedEntities`: payloads missing an
entity name are skipped, and a relationship is stored only when both names
resolve (case-insensitively) among the episode's freshly built entities;
dangling ones are silently dropped.  The `uuid` argument stands for the
`uuidv4()` drawn inside `createRelationshipId`. -/
def processRelationships (extracted : ExtractedData) (episodeId : String)
    (entities : List Entity) (uuid : String) : List Relationship :=
  extracted.relationships.filterMap fun relData =>
    if relData.entity1_name = "" || relData.entity2_name = "" then none
    else
      match findEntityId relData.entity1_name entities,
          findEntityId relData.entity2_name entities with
      | some entity1Id, some entity2Id =>
        some { id := createRelationshipId entity1Id entity2Id uuid
               episode_id := episodeId
               entity1_id := entity1Id
               entity1_name := relData.entity1_name
               entity2_id := entity2Id
               entity2_name := relData.entity2_name
               relationship_type :=
                 if relData.relationship_type = "" then "related_to"
                 else relData.relationship_type
               description := relData.description
               confidence_score :=
                 match relData.confidence_score with
                 | none => 8/10
                 | some c => if c = 0 then 8/10 else c
               is_cross_episode := false }
      | _, _ => none

/-- `processExtractedEntities` (the global entity cache it also updates is
unobservable in its return value and is not modelled). -/
def processExtractedEntities (extracted : ExtractedData) (episodeId : String)
    (uuid : String) : List Entity × List Relationship :=
  let entities := processEntities extracted episodeId
  (entities, processRelationships extracted episodeId entities uuid)

/-! ### Concrete data used by witnesses -/

/-- A person entity of episode `ep1`. -/
def exEntityJeff1 : Entity :=
  ⟨"e1", "ep1", "Jeff Bezos", "person", "CEO of Amazon", false, none, 8/10⟩

/-- The same person re-extracted in episode `ep2` (different casing). -/
def exEntityJeff2 : Entity :=
  ⟨"e2", "ep2", "JEFF BEZOS", "person", "mentioned briefly", false, none, 8/10⟩

/-- Episode 1 with a single person entity. -/
def exEp1 : EpisodeData :=
  ⟨"ep1", "The Bezos Letters", some 1, none, none, [exEntityJeff1], [], "gemini", "t0"⟩

/-- Episode 2 with a single person entity shared with `exEp1`. -/
def exEp2 : EpisodeData :=
  ⟨"ep2", "Unrelated Episode", some 2, none, none, [exEntityJeff2], [], "gemini", "t0"⟩


/-! ## Search engine data model -/

/-- `Episode` record of the podcast summary consumed by the search engine. -/
structure Episode where
  title : String
  text : String
  episode_number : Option Nat
  date : Option String
  url : Option String
  episode_id : String
  deriving DecidableEq, Repr

/-- `PodcastData`: the loaded summary file. -/
structure PodcastData where
  episodes : List Episode
  deriving DecidableEq, Repr

/-- The slice of the loaded `GraphOutput` the search engine reads
(`all_entities` and `all_relationships`; its other fields are never
consulted by the search paths). -/
structure GraphOutput where
  all_entities : List Entity
  all_relationships : List Relationship
  deriving DecidableEq, Repr

/-- `SearchResult` row; `match_type` holds one of the five literal labels. -/
structure SearchResult where
  episode_id : String
  episode_title : String
  episode_number : Option Nat
  episode_url : Option String
  episode_date : Option String
  match_type : String
  match_details : String
  entities_linked : List Entity
  relationships_linked : List Relationship
  relevance_score : ℚ
  deriving DecidableEq, Repr

/-! ## Relevance scoring -/

/-- Base score per match type (`calculateRelevanceScore`'s switch). -/
def baseScore (matchType : String) : ℚ :=
  if matchType = "episode_title" then 100
  else if matchType = "entity_name" then 90
  else if matchType = "relationship_description" then 80
  else if matchType = "entity_context" then 70
  else if matchType = "episode_text" then 60
  else 50

/-- `calculateRelevanceScore`: exact substring matches get a base score by
match type, a capped per-occurrence bonus and a length penalty, floored at
1; otherwise a fuzzy pass scores the fraction of query words present.
The bonus here uses the literal occurrence count, faithful to the code's
`new RegExp(lowerSearchTerm, 'g')` only for metacharacter-free queries:
on wildcard queries the code counts `countRegexDot` matches instead, and
on invalid-regex queries it throws. -/
def calculateRelevanceScore (searchTerm text matchType : String) : ℚ :=
  let lowerSearchTerm := lowerStr searchTerm
  let lowerText := lowerStr text
  if strIncludes lowerText lowerSearchTerm then
    let matchCount := countOccur lowerText.data lowerSearchTerm.data
    let matchBonus := min ((matchCount : ℚ) * 10) 50
    let lengthPenalty := max 0 (((text.length : ℚ) - 100) / 100)
    max 1 (baseScore matchType + matchBonus - lengthPenalty)
  else
    let words := splitOnSpace lowerSearchTerm
    let matchingWords := words.filter fun w => strIncludes lowerText w
    if matchingWords.length > 0 then
      jsRound (((matchingWords.length : ℚ) / (words.length : ℚ)) * 30)
    else 0

/-! ## Search passes -/

/-- `findEpisodeById`: first summary episode with the given id. -/
def findEpisodeById (summaryData : Option PodcastData) (episodeId : String) : Option Episode :=
  match summaryData with
  | none => none
  | some data => data.episodes.find? fun ep => ep.episode_id == episodeId

/-- `this.entityData?.all_entities.filter(...) || []` for one episode. -/
def entitiesLinkedFor (entityData : Option GraphOutput) (episodeId : String) : List Entity :=
  match entityData with
  | none => []
  | some ed => ed.all_entities.filter fun e => e.episode_id == episodeId

/-- `this.entityData?.all_relationships.filter(...) || []` for one episode. -/
def relationshipsLinkedFor (entityData : Option GraphOutput) (episodeId : String) :
    List Relationship :=
  match entityData with
  | none => []
  | some ed => ed.all_relationships.filter fun r => r.episode_id == episodeId

/-- First index at which `pat` occurs in `text` (JS `indexOf`, `none` for
the not-found case the caller has already excluded). -/
def idxOfSub : List Char → List Char → Option Nat
  | [], pat => if pat.isEmpty then some 0 else none
  | c :: ts, pat =>
    if pat.isPrefixOf (c :: ts) then some 0 else (idxOfSub ts pat).map (· + 1)

/-- Per-episode body of `searchInEpisodeText`'s loop: title checked before
text, producing match type, details and relevance score. -/
def episodeMatch (searchTerm : String) (episode : Episode) : Option (String × String × ℚ) :=
  let lowerSearchTerm := lowerStr searchTerm
  if strIncludes (lowerStr episode.title) lowerSearchTerm then
    some ("episode_title",
      "Found \"" ++ searchTerm ++ "\" in episode title: \"" ++ episode.title ++ "\"",
      calculateRelevanceScore searchTerm episode.title "episode_title")
  else if !(episode.text == "") && strIncludes (lowerStr episode.text) lowerSearchTerm then
    let matchIndex := (idxOfSub (lowerStr episode.text).data lowerSearchTerm.data).getD 0
    let contextStart := matchIndex - 100
    let contextEnd := min episode.text.length (matchIndex + searchTerm.length + 100)
    let context := jsSubstring episode.text contextStart contextEnd
    some ("episode_text",
      "Found \"" ++ searchTerm ++ "\" in episode text: \"..." ++ context ++ "...\"",
      calculateRelevanceScore searchTerm episode.text "episode_text")
  else none

/-- `searchInEpisodeText`: one result per summary episode whose title or
text contains the query. -/
def searchInEpisodeText (summaryData : Option PodcastData) (entityData : Option GraphOutput)
    (searchTerm : String) : List SearchResult :=
  match summaryData with
  | none => []
  | some data =>
    data.episodes.filterMap fun episode =>
      match episodeMatch searchTerm episode with
      | none => none
      | some (matchType, matchDetails, relevanceScore) =>
        some { episode_id := episode.episode_id
               episode_title := episode.title
               episode_number := episode.episode_number
               episode_url := episode.url
               episode_date := episode.date
               match_type := matchType
               match_details := matchDetails
               entities_linked := entitiesLinkedFor entityData episode.episode_id
               relationships_linked := relationshipsLinkedFor entityData episode.episode_id
               relevance_score := relevanceScore }

/-- Per-entity body of `searchInEntities`'s loop: name checked before
context. -/
def entityMatch (searchTerm : String) (entity : Entity) : Option (String × String × ℚ) :=
  let lowerSearchTerm := lowerStr searchTerm
  if strIncludes (lowerStr entity.name) lowerSearchTerm then
    some ("entity_name",
      "Found \"" ++ searchTerm ++ "\" in entity name: \"" ++ entity.name ++ "\" (" ++
        entity.type ++ ")",
      calculateRelevanceScore searchTerm entity.name "entity_name")
  else if !(entity.context == "") && strIncludes (lowerStr entity.context) lowerSearchTerm then
    some ("entity_context",
      "Found \"" ++ searchTerm ++ "\" in entity context for \"" ++ entity.name ++ "\": \"" ++
        entity.context ++ "\"",
      calculateRelevanceScore searchTerm entity.context "entity_context")
  else none

/-- Loop of `searchInEntities`: at most one row per episode id (the first
matching entity wins; the id is marked processed even when the episode
lookup fails and no row is pushed). -/
def searchInEntitiesAux (summaryData : Option PodcastData) (entityData : Option GraphOutput)
    (searchTerm : String) : List Entity → List String → List SearchResult
  | [], _ => []
  | entity :: rest, processed =>
    match entityMatch searchTerm entity with
    | none => searchInEntitiesAux summaryData entityData searchTerm rest processed
    | some (matchType, matchDetails, relevanceScore) =>
      if processed.contains entity.episode_id then
        searchInEntitiesAux summaryData entityData searchTerm rest processed
      else
        match findEpisodeById summaryData entity.episode_id with
        | none =>
          searchInEntitiesAux summaryData entityData searchTerm rest
            (processed ++ [entity.episode_id])
        | some episode =>
          { episode_id := entity.episode_id
            episode_title := episode.title
            episode_number := episode.episode_number
            episode_url := episode.url
            episode_date := episode.date
            match_type := matchType
            match_details := matchDetails
            entities_linked := entitiesLinkedFor entityData entity.episode_id
            relationships_linked := relationshipsLinkedFor entityData entity.episode_id
            relevance_score := relevanceScore } ::
            searchInEntitiesAux summaryData entityData searchTerm rest
              (processed ++ [entity.episode_id])

/-- `searchInEntities`. -/
def searchInEntities (summaryData : Option PodcastData) (entityData : Option GraphOutput)
    (searchTerm : String) : List SearchResult :=
  match entityData with
  | none => []
  | some ed => searchInEntitiesAux summaryData entityData searchTerm ed.all_entities []

/-- Per-relationship body of `searchInRelationships`'s loop: the
description is checked first, then the relationship-type label; both
branches record the `relationship_description` match type. -/
def relMatch (searchTerm : String) (relationship : Relationship) : Option (String × ℚ) :=
  let lowerSearchTerm := lowerStr searchTerm
  if !(relationship.description == "") &&
      strIncludes (lowerStr relationship.description) lowerSearchTerm then
    some ("Found \"" ++ searchTerm ++ "\" in relationship: \"" ++ relationship.entity1_name ++
        "\" " ++ relationship.relationship_type ++ " \"" ++ relationship.entity2_name ++
        "\" - " ++ relationship.description,
      calculateRelevanceScore searchTerm relationship.description "relationship_description")
  else if strIncludes (lowerStr relationship.relationship_type) lowerSearchTerm then
    some ("Found \"" ++ searchTerm ++ "\" in relationship type: \"" ++
        relationship.entity1_name ++ "\" " ++ relationship.relationship_type ++ " \"" ++
        relationship.entity2_name ++ "\"",
      calculateRelevanceScore searchTerm relationship.relationship_type
        "relationship_description")
  else none

/-- Loop of `searchInRelationships`. -/
def searchInRelationshipsAux (summaryData : Option PodcastData) (entityData : Option GraphOutput)
    (searchTerm : String) : List Relationship → List String → List SearchResult
  | [], _ => []
  | relationship :: rest, processed =>
    match relMatch searchTerm relationship with
    | none => searchInRelationshipsAux summaryData entityData searchTerm rest processed
    | some (matchDetails, relevanceScore) =>
      if processed.contains relationship.episode_id then
        searchInRelationshipsAux summaryData entityData searchTerm rest processed
      else
        match findEpisodeById summaryData relationship.episode_id with
        | none =>
          searchInRelationshipsAux summaryData entityData searchTerm rest
            (processed ++ [relationship.episode_id])
        | some episode =>
          { episode_id := relationship.episode_id
            episode_title := episode.title
            episode_number := episode.episode_number
            episode_url := episode.url
            episode_date := episode.date
            match_type := "relationship_description"
            match_details := matchDetails
            entities_linked := entitiesLinkedFor entityData relationship.episode_id
            relationships_linked := relationshipsLinkedFor entityData relationship.episode_id
            relevance_score := relevanceScore } ::
            searchInRelationshipsAux summaryData entityData searchTerm rest
              (processed ++ [relationship.episode_id])

/-- `searchInRelationships`. -/
def searchInRelationships (summaryData : Option PodcastData) (entityData : Option GraphOutput)
    (searchTerm : String) : List SearchResult :=
  match entityData with
  | none => []
  | some ed => searchInRelationshipsAux summaryData entityData searchTerm ed.all_relationships []

/-! ## Aggregation: dedup by episode id, then stable descending sort -/

/-- One `Map.set`-style step of the dedup fold: replace the stored row in
place when the new row scores strictly higher, insert at the end when the
episode id is new. -/
def dedupStep (m : List SearchResult) (r : SearchResult) : List SearchResult :=
  match m.find? (fun x => x.episode_id == r.episode_id) with
  | some existing =>
    if r.relevance_score > existing.relevance_score then
      m.map fun x => if x.episode_id == r.episode_id then r else x
    else m
  | none => m ++ [r]

/-- The `uniqueResults` map of `search`, as an insertion-ordered list. -/
def dedupByEpisode (rs : List SearchResult) : List SearchResult := rs.foldl dedupStep []

/-- Stable descending insertion: a row is placed before the first stored
row whose score is not larger, so earlier rows precede ties. -/
def insertByScore (r : SearchResult) : List SearchResult → List SearchResult
  | [] => [r]
  | x :: xs =>
    if x.relevance_score ≤ r.relevance_score then r :: x :: xs else x :: insertByScore r xs

/-- JS `Array.prototype.sort` with comparator `b.relevance_score -
a.relevance_score` (stable, descending). -/
def sortByScoreDesc : List SearchResult → List SearchResult
  | [] => []
  | x :: xs => insertByScore x (sortByScoreDesc xs)

/-- `allResults`: the concatenation of the three per-kind passes, in the
order `search` builds it. -/
def allCandidates (summaryData : Option PodcastData) (entityData : Option GraphOutput)
    (searchTerm : String) : List SearchResult :=
  searchInEpisodeText summaryData entityData searchTerm ++
    searchInEntities summaryData entityData searchTerm ++
    searchInRelationships summaryData entityData searchTerm

/-- `search`: combine the three passes, deduplicate by episode id keeping
the highest-scoring row, sort by descending relevance. -/
def search (summaryData : Option PodcastData) (entityData : Option GraphOutput)
    (searchTerm : String) : List SearchResult :=
  sortByScoreDesc (dedupByEpisode (allCandidates summaryData entityData searchTerm))

/-- A 4201-character text whose only occurrence of `a` is at the end, long
enough for the length penalty to push an exact text match below the top
fuzzy score. -/
def longTextC7 : String := ⟨List.replicate 4200 'b' ++ ['a']⟩

/-- First entity of the search corpus `exGraphC4`: matches `alpha` only in
its context. -/
def exEntityBeta : Entity := ⟨"e10", "ep1", "Beta", "person", "alpha stuff etc", false, none, 1⟩

/-- Second entity of `exGraphC4`: matches `alpha` in its name, which
scores higher, but is reached after `exEntityBeta`. -/
def exEntityAlpha : Entity := ⟨"e11", "ep1", "Alpha", "person", "", false, none, 1⟩

/-- Summary episode whose title and text do not contain `alpha`. -/
def exEpisodeZeta : Episode := ⟨"Zeta", "", some 1, none, none, "ep1"⟩

/-- Summary corpus for the deduplication scenario. -/
def exSummaryC4 : PodcastData := ⟨[exEpisodeZeta]⟩

/-- Graph corpus for the deduplication scenario. -/
def exGraphC4 : GraphOutput := ⟨[exEntityBeta, exEntityAlpha], []⟩

/-- The single row `search` returns on the deduplication scenario. -/
def exRowC4 : SearchResult :=
  ⟨"ep1", "Zeta", some 1, none, none, "entity_context",
    "Found \"alpha\" in entity context for \"Beta\": \"alpha stuff etc\"",
    [exEntityBeta, exEntityAlpha], [],
    calculateRelevanceScore "alpha" "alpha stuff etc" "entity_context"⟩

/-- A relationship whose type label and description both contain `alpha`,
with different occurrence counts so the two branch scores differ. -/
def exRelBoth : Relationship :=
  ⟨"r1", "ep1", "e1", "A", "e2", "B", "alpha_rel", "an alpha and alpha story", 1, false⟩

/-- Summary corpus for the relationship match-order scenario. -/
def exSummaryC5 : PodcastData := ⟨[⟨"T", "", some 2, none, none, "ep1"⟩]⟩

/-- Graph corpus for the relationship match-order scenario. -/
def exGraphC5 : GraphOutput := ⟨[], [exRelBoth]⟩

/-- The single row `searchInRelationships` returns on that scenario: the
description branch fired although the type label also matches. -/
def exRowC5 : SearchResult :=
  ⟨"ep1", "T", some 2, none, none, "relationship_description",
    "Found \"alpha\" in relationship: \"A\" alpha_rel \"B\" - an alpha and alpha story",
    [], [exRelBoth],
    calculateRelevanceScore "alpha" "an alpha and alpha story" "relationship_description"⟩

/-- One-episode summary corpus for the empty-query scenario. -/
def exSummaryC6 : PodcastData := ⟨[⟨"Solo Episode", "", none, none, none, "ep1"⟩]⟩

/-- The row the empty query produces for it: every title contains the
empty substring. -/
def exRowC6 : SearchResult :=
  ⟨"ep1", "Solo Episode", none, none, none, "episode_title",
    "Found \"\" in episode title: \"Solo Episode\"", [], [],
    calculateRelevanceScore "" "Solo Episode" "episode_title"⟩

/-- Two-episode summary corpus for the empty-query witness. -/
def exSummaryC6b : PodcastData :=
  ⟨[⟨"A", "", none, none, none, "epA"⟩, ⟨"B", "", none, none, none, "epB"⟩]⟩

/-- Empty graph corpus. -/
def exGraphEmpty : GraphOutput := ⟨[], []⟩

/-- Id-mapper state with one entry per lookup table. -/
def exIdMaps : IdMaps :=
  ⟨[(3, "id_num")], [("http://u", "id_url")], [("my title", "id_title")]⟩

/-- An episode whose number, URL and normalized title all hit `exIdMaps`. -/
def exParsedEp : ParsedEpisode := ⟨"My!! Title", some 3, none, some "http://u"⟩

/-- An episode matching nothing in `exIdMaps`. -/
def exParsedEpNew : ParsedEpisode := ⟨"Fresh Episode", some 9, none, some "http://v"⟩

/-- Extraction payload exercising ingestion: one valid entity, one invalid
(empty name), one valid entity with searchable flag; one resolvable
relationship and one dangling relationship. -/
def exExtracted : ExtractedData :=
  ⟨[⟨"Jeff Bezos", "person", "founder", false, none, none⟩,
    ⟨"", "person", "c", false, none, none⟩,
    ⟨"Amazon", "company", "retailer", true, none, none⟩],
   [⟨"jeff bezos", "Amazon", "founded", "d", none⟩,
    ⟨"Jeff Bezos", "Nokia", "fan_of", "d2", none⟩]⟩

/-- The entity list ingestion builds from `exExtracted`. -/
def exEntityOut1 : Entity :=
  ⟨"person_jeffbezos_ep_12345", "ep_12345678", "Jeff Bezos", "person", "founder",
    false, none, 8/10⟩

/-- Second accepted entity of `exExtracted`. -/
def exEntityOut2 : Entity :=
  ⟨"company_amazon_ep_12345", "ep_12345678", "Amazon", "company", "retailer",
    true, none, 8/10⟩

/-- The one stored relationship of `exExtracted` (the dangling one to
`Nokia` is dropped). -/
def exRelOut : Relationship :=
  ⟨"rel_company_amazon_ep_12345_person_jeffbezos_ep_12345_uuuuuuuu", "ep_12345678",
    "person_jeffbezos_ep_12345", "jeff bezos", "company_amazon_ep_12345", "Amazon",
    "founded", "d", 8/10, false⟩

/-- Invariant of the dedup fold: after processing `processed`, the map
`m` has pairwise distinct episode ids, every stored row is a processed row
that scores at least every processed row with its episode id, and every
processed episode id is represented. -/
def dedupInv (processed m : List SearchResult) : Prop :=
  ((m.map fun t => t.episode_id).Nodup)
  ∧ (∀ x ∈ m, x ∈ processed ∧
      ∀ y ∈ processed, y.episode_id = x.episode_id → y.relevance_score ≤ x.relevance_score)
  ∧ (∀ y ∈ processed, ∃ x ∈ m, x.episode_id = y.episode_id)

/-! ## Theorems -/

theorem typeWeight_pos (t : String) : 0 < typeWeight t := by
  unfold typeWeight
  split_ifs <;> norm_num

theorem weightedScore_nonneg (l : List Entity) :
    0 ≤ (l.map fun e => typeWeight e.type).sum := by
  refine List.sum_nonneg ?_
  intro x hx
  obtain ⟨e, _, rfl⟩ := List.mem_map.mp hx
  exact le_of_lt (typeWeight_pos e.type)

/-- C1: for every pair of episodes with a non-empty shared-entity set, the
relationship-strength score equals `min 1 (2 * W / max n1 n2)` where `W`
sums the per-entity type weights over the shared set, and the score lies
in `[0, 1]`. -/
theorem strength_formula_and_bounds (ep1 ep2 : EpisodeData)
    (h : findSharedEntities ep1.entities ep2.entities ≠ []) :
    calculateRelationshipStrength (findSharedEntities ep1.entities ep2.entities) ep1 ep2
        = min 1 (2 * ((findSharedEntities ep1.entities ep2.entities).map
            fun e => typeWeight e.type).sum
          / ((max ep1.entities.length ep2.entities.length : ℕ) : ℚ))
      ∧ 0 ≤ calculateRelationshipStrength
          (findSharedEntities ep1.entities ep2.entities) ep1 ep2
      ∧ calculateRelationshipStrength
          (findSharedEntities ep1.entities ep2.entities) ep1 ep2 ≤ 1 := by
  unfold calculateRelationshipStrength
  refine ⟨?_, ?_, min_le_left _ _⟩
  · exact congrArg (min 1) (by ring)
  · refine le_min (by norm_num) ?_
    have hW := weightedScore_nonneg (findSharedEntities ep1.entities ep2.entities)
    have hM : (0 : ℚ) ≤ ((max ep1.entities.length ep2.entities.length : ℕ) : ℚ) := by
      positivity
    have := div_nonneg hW hM
    linarith


theorem strength_formula_and_bounds_witness :
    findSharedEntities exEp1.entities exEp2.entities ≠ [] ∧
      (calculateRelationshipStrength (findSharedEntities exEp1.entities exEp2.entities) exEp1 exEp2
          = min 1 (2 * ((findSharedEntities exEp1.entities exEp2.entities).map
              fun e => typeWeight e.type).sum
            / ((max exEp1.entities.length exEp2.entities.length : ℕ) : ℚ))
        ∧ 0 ≤ calculateRelationshipStrength
            (findSharedEntities exEp1.entities exEp2.entities) exEp1 exEp2
        ∧ calculateRelationshipStrength
            (findSharedEntities exEp1.entities exEp2.entities) exEp1 exEp2 ≤ 1) :=
  ⟨by decide, strength_formula_and_bounds exEp1 exEp2 (by decide)⟩

/-! ### The linker emits a pair record iff overlap is non-empty and strength exceeds 0.3 -/

theorem crossRelFor_some (ep1 ep2 : EpisodeData) (r : CrossEpisodeRelationship)
    (h : crossRelFor ep1 ep2 = some r) :
    r = crossRecordOf ep1 ep2 ∧ findSharedEntities ep1.entities ep2.entities ≠ [] ∧
      3/10 < calculateRelationshipStrength (findSharedEntities ep1.entities ep2.entities) ep1 ep2 := by
  unfold crossRelFor at h
  by_cases hlen : (findSharedEntities ep1.entities ep2.entities).length > 0
  · rw [if_pos hlen] at h
    by_cases hstr : 3/10 <
        calculateRelationshipStrength (findSharedEntities ep1.entities ep2.entities) ep1 ep2
    · rw [if_pos hstr] at h
      refine ⟨(Option.some_injective _ h).symm, ?_, hstr⟩
      exact List.length_pos.mp hlen
    · rw [if_neg hstr] at h
      cases h
  · rw [if_neg hlen] at h
    cases h

theorem exists_pair_of_mem_detect {eps : List EpisodeData} {r : CrossEpisodeRelationship}
    (h : r ∈ detectCrossEpisodeRelationships eps) :
    ∃ a b, crossRelFor a b = some r := by
  induction eps with
  | nil => simp [detectCrossEpisodeRelationships] at h
  | cons ep rest ih =>
    rw [detectCrossEpisodeRelationships, List.mem_append] at h
    rcases h with h | h
    · obtain ⟨b, _, hb⟩ := List.mem_filterMap.mp h
      exact ⟨ep, b, hb⟩
    · exact ih h

theorem mem_detect_of_get (eps : List EpisodeData) (i j : ℕ) (a b : EpisodeData)
    (r : CrossEpisodeRelationship) (hij : i < j) (ha : eps[i]? = some a)
    (hb : eps[j]? = some b) (h : crossRelFor a b = some r) :
    r ∈ detectCrossEpisodeRelationships eps := by
  induction eps generalizing i j with
  | nil => simp at ha
  | cons ep rest ih =>
    rw [detectCrossEpisodeRelationships, List.mem_append]
    match i, j with
    | 0, j' + 1 =>
      simp only [List.getElem?_cons_zero, Option.some_inj] at ha
      simp only [List.getElem?_cons_succ] at hb
      subst ha
      left
      exact List.mem_filterMap.mpr ⟨b, List.getElem?_mem hb, h⟩
    | i' + 1, j' + 1 =>
      simp only [List.getElem?_cons_succ] at ha hb
      right
      exact ih i' j' (Nat.succ_lt_succ_iff.mp hij) ha hb

/-- C2: for every ordered position pair `i < j` of the input, the linker's
output contains the record for that pair iff the pair's shared-entity set
is non-empty and its relationship strength is strictly greater than `0.3`
(strength exactly `0.3` is excluded by the strict comparison). -/
theorem detect_pair_iff (eps : List EpisodeData) (i j : ℕ) (a b : EpisodeData)
    (hij : i < j) (ha : eps[i]? = some a) (hb : eps[j]? = some b) :
    crossRecordOf a b ∈ detectCrossEpisodeRelationships eps ↔
      findSharedEntities a.entities b.entities ≠ [] ∧
        3/10 < calculateRelationshipStrength (findSharedEntities a.entities b.entities) a b := by
  constructor
  · intro hmem
    obtain ⟨x, y, hxy⟩ := exists_pair_of_mem_detect hmem
    obtain ⟨heq, hne, hstr⟩ := crossRelFor_some x y _ hxy
    have hshared : (findSharedEntities a.entities b.entities).map (fun e => e.name)
        = (findSharedEntities x.entities y.entities).map (fun e => e.name) :=
      congrArg CrossEpisodeRelationship.shared_entities heq
    have hstrength : calculateRelationshipStrength
          (findSharedEntities a.entities b.entities) a b
        = calculateRelationshipStrength (findSharedEntities x.entities y.entities) x y :=
      congrArg CrossEpisodeRelationship.relationship_strength heq
    constructor
    · intro hnil
      rw [hnil] at hshared
      exact hne (List.map_eq_nil_iff.mp hshared.symm)
    · rw [hstrength]
      exact hstr
  · rintro ⟨hne, hstr⟩
    have hsome : crossRelFor a b = some (crossRecordOf a b) := by
      unfold crossRelFor crossRecordOf
      rw [if_pos (List.length_pos.mpr hne), if_pos hstr]
    exact mem_detect_of_get eps i j a b _ hij ha hb hsome

theorem detect_pair_iff_witness :
    (0 < 1 ∧ [exEp1, exEp2][0]? = some exEp1 ∧ [exEp1, exEp2][1]? = some exEp2) ∧
      (crossRecordOf exEp1 exEp2 ∈ detectCrossEpisodeRelationships [exEp1, exEp2] ↔
        findSharedEntities exEp1.entities exEp2.entities ≠ [] ∧
          3/10 < calculateRelationshipStrength
            (findSharedEntities exEp1.entities exEp2.entities) exEp1 exEp2) :=
  ⟨⟨by decide, rfl, rfl⟩, detect_pair_iff [exEp1, exEp2] 0 1 exEp1 exEp2 (by decide) rfl rfl⟩
/-! ### Relevance scoring: exact matches (C3) and the fuzzy pass (C7) -/

theorem baseScore_ge (mt : String) : 50 ≤ baseScore mt := by
  unfold baseScore
  split_ifs <;> norm_num

theorem relevance_exact_eq (q text mt : String)
    (h : strIncludes (lowerStr text) (lowerStr q) = true) :
    calculateRelevanceScore q text mt
      = max 1 (baseScore mt
          + min ((countOccur (lowerStr text).data (lowerStr q).data : ℚ) * 10) 50
          - max 0 (((text.length : ℚ) - 100) / 100)) := by
  simp only [calculateRelevanceScore, h]
  rfl

theorem dotPatIsPrefixOf_eq_isPrefixOf (pat : List Char) (hp : ('.' : Char) ∉ pat) :
    ∀ text, dotPatIsPrefixOf pat text = pat.isPrefixOf text := by
  induction pat with
  | nil =>
    intro text
    rw [List.isPrefixOf_nil_left]
    rfl
  | cons p ps ih =>
    intro text
    have hpd : (p == '.') = false :=
      beq_eq_false_iff_ne.mpr fun h => hp (h ▸ List.mem_cons_self p ps)
    cases text with
    | nil => rfl
    | cons c cs =>
      rw [dotPatIsPrefixOf, List.isPrefixOf_cons₂, dotAtomMatch, hpd, if_neg (by simp),
        ih (fun h => hp (List.mem_cons_of_mem p h)) cs]

theorem countRegexDotAux_eq_countOccAux (pat : List Char) (hp : ('.' : Char) ∉ pat) :
    ∀ fuel text, countRegexDotAux fuel text pat = countOccAux fuel text pat := by
  intro fuel
  induction fuel with
  | zero =>
    intro text
    rfl
  | succ f ih =>
    intro text
    cases text with
    | nil => rfl
    | cons c ts =>
      rw [countRegexDotAux, countOccAux, dotPatIsPrefixOf_eq_isPrefixOf pat hp (c :: ts)]
      by_cases hpre : pat.isPrefixOf (c :: ts) = true
      · rw [if_pos hpre, if_pos hpre, ih]
      · rw [if_neg hpre, if_neg hpre, ih]

/-- For queries without the wildcard (or any other metacharacter to give
it meaning), the wildcard-fragment regex scan and the literal scan count
the same matches — the domain on which `countOccur` is faithful. -/
theorem countRegexDot_eq_countOccur (text pat : List Char) (hp : ('.' : Char) ∉ pat) :
    countRegexDot text pat = countOccur text pat := by
  cases pat with
  | nil => rfl
  | cons p ps =>
    exact countRegexDotAux_eq_countOccAux (p :: ps) hp text.length text

/-- C3 (code bug): the claimed bonus counts occurrences of the query
substring, so the query `a.c` matched exactly in the field `a.c abc`
(one literal occurrence) is claimed to score 60 + 10 = 70; the code
instead counts matches of `new RegExp("a.c", 'g')`, whose wildcard scan
finds two matches (`a.c` and `abc`), so the program scores 80 — and a
query such as `c++` makes the `RegExp` constructor throw a `SyntaxError`
before any score exists, contradicting the never-fatal requirement. -/
theorem regex_bonus_bug :
    strIncludes (lowerStr "a.c abc") (lowerStr "a.c") = true
      ∧ countOccur (lowerStr "a.c abc").data (lowerStr "a.c").data = 1
      ∧ countRegexDot (lowerStr "a.c abc").data (lowerStr "a.c").data = 2
      ∧ calculateRelevanceScore "a.c" "a.c abc" "episode_text" = 70
      ∧ max 1 (baseScore "episode_text" + min ((2 : ℚ) * 10) 50
          - max 0 (((("a.c abc" : String).length : ℚ) - 100) / 100)) = 80
      ∧ (70 : ℚ) ≠ 80 := by
  have hscore : calculateRelevanceScore "a.c" "a.c abc" "episode_text" = 70 := by
    rw [relevance_exact_eq "a.c" "a.c abc" "episode_text" (by decide)]
    rw [show countOccur (lowerStr "a.c abc").data (lowerStr "a.c").data = 1 from by decide]
    rw [show ("a.c abc" : String).length = 7 from by decide]
    rw [show baseScore "episode_text" = 60 from rfl]
    norm_num [min_def, max_def]
  have hregex : max 1 (baseScore "episode_text" + min ((2 : ℚ) * 10) 50
      - max 0 (((("a.c abc" : String).length : ℚ) - 100) / 100)) = 80 := by
    rw [show ("a.c abc" : String).length = 7 from by decide]
    rw [show baseScore "episode_text" = 60 from rfl]
    norm_num [min_def, max_def]
  exact ⟨by decide, by decide, by decide, hscore, hregex, by norm_num⟩

theorem jsRound_le_of_lt (q : ℚ) (n : ℤ) (h : q + 1/2 < n + 1) : jsRound q ≤ (n : ℚ) := by
  unfold jsRound
  have hlt : ⌊q + 1/2⌋ < n + 1 := Int.floor_lt.mpr (by push_cast; linarith)
  exact_mod_cast Int.lt_add_one_iff.mp hlt

theorem relevance_fuzzy_eq (q text mt : String)
    (h1 : strIncludes (lowerStr text) (lowerStr q) = false)
    (h2 : (splitOnSpace (lowerStr q)).filter (fun w => strIncludes (lowerStr text) w) ≠ []) :
    calculateRelevanceScore q text mt
      = jsRound ((((splitOnSpace (lowerStr q)).filter
            (fun w => strIncludes (lowerStr text) w)).length : ℚ)
          / ((splitOnSpace (lowerStr q)).length : ℚ) * 30) := by
  simp only [calculateRelevanceScore, h1, Bool.false_eq_true, if_false]
  rw [if_pos (List.length_pos.mpr h2)]

/-- C7 (amended): when the full query substring is absent from the field
but at least one space-separated query word is present, the score is
`round(fraction-of-words-present * 30)`, at most 30, and strictly below
the base score of every exact match type — though not necessarily below
an exact match's final penalty-adjusted score. -/
theorem relevance_fuzzy_band (q text mt : String)
    (h1 : strIncludes (lowerStr text) (lowerStr q) = false)
    (h2 : (splitOnSpace (lowerStr q)).filter (fun w => strIncludes (lowerStr text) w) ≠ []) :
    calculateRelevanceScore q text mt
        = jsRound ((((splitOnSpace (lowerStr q)).filter
              (fun w => strIncludes (lowerStr text) w)).length : ℚ)
            / ((splitOnSpace (lowerStr q)).length : ℚ) * 30)
      ∧ calculateRelevanceScore q text mt ≤ 30
      ∧ ∀ mt', calculateRelevanceScore q text mt < baseScore mt' := by
  have heq := relevance_fuzzy_eq q text mt h1 h2
  have hwords : ((splitOnSpace (lowerStr q)).filter
      (fun w => strIncludes (lowerStr text) w)).length ≤ (splitOnSpace (lowerStr q)).length :=
    List.length_filter_le _ _
  have hpos : 0 < ((splitOnSpace (lowerStr q)).filter
      (fun w => strIncludes (lowerStr text) w)).length := List.length_pos.mpr h2
  have hr : (((splitOnSpace (lowerStr q)).filter
        (fun w => strIncludes (lowerStr text) w)).length : ℚ)
      / ((splitOnSpace (lowerStr q)).length : ℚ) ≤ 1 :=
    div_le_one_of_le₀ (by exact_mod_cast hwords) (by positivity)
  have h30 : (((splitOnSpace (lowerStr q)).filter
        (fun w => strIncludes (lowerStr text) w)).length : ℚ)
      / ((splitOnSpace (lowerStr q)).length : ℚ) * 30 ≤ 30 := by nlinarith
  have hle : calculateRelevanceScore q text mt ≤ 30 := by
    rw [heq]
    have := jsRound_le_of_lt ((((splitOnSpace (lowerStr q)).filter
        (fun w => strIncludes (lowerStr text) w)).length : ℚ)
      / ((splitOnSpace (lowerStr q)).length : ℚ) * 30) 30 (by push_cast; linarith)
    simpa using this
  refine ⟨heq, hle, fun mt' => ?_⟩
  have := baseScore_ge mt'
  linarith

theorem relevance_fuzzy_band_witness :
    strIncludes (lowerStr "y x") (lowerStr "x y") = false ∧
    (splitOnSpace (lowerStr "x y")).filter (fun w => strIncludes (lowerStr "y x") w) ≠ [] ∧
    (calculateRelevanceScore "x y" "y x" "episode_text"
        = jsRound ((((splitOnSpace (lowerStr "x y")).filter
              (fun w => strIncludes (lowerStr "y x") w)).length : ℚ)
            / ((splitOnSpace (lowerStr "x y")).length : ℚ) * 30)
      ∧ calculateRelevanceScore "x y" "y x" "episode_text" ≤ 30
      ∧ ∀ mt', calculateRelevanceScore "x y" "y x" "episode_text" < baseScore mt') :=
  ⟨by decide, by decide, relevance_fuzzy_band "x y" "y x" "episode_text" (by decide) (by decide)⟩

theorem countOccAux_nil (fuel : Nat) (pat : List Char) : countOccAux fuel [] pat = 0 := by
  cases fuel <;> rfl

theorem listIncludes_repl (n : Nat) :
    listIncludes (List.replicate n 'b' ++ ['a']) ['a'] = true := by
  induction n with
  | zero => rfl
  | succ k ih =>
    rw [List.replicate_succ, List.cons_append, listIncludes, ih, Bool.or_true]

theorem countOccAux_repl (n : Nat) : ∀ fuel, n + 1 ≤ fuel →
    countOccAux fuel (List.replicate n 'b' ++ ['a']) ['a'] = 1 := by
  induction n with
  | zero =>
    intro fuel h
    match fuel, h with
    | f + 1, _ =>
      show 1 + countOccAux f [] ['a'] = 1
      rw [countOccAux_nil]
  | succ k ih =>
    intro fuel h
    match fuel, h with
    | f + 1, h =>
      show countOccAux (f + 1) (List.replicate (k + 1) 'b' ++ ['a']) ['a'] = 1
      rw [List.replicate_succ, List.cons_append]
      show countOccAux f (List.replicate k 'b' ++ ['a']) ['a'] = 1
      exact ih f (by omega)

theorem longText_data : longTextC7.data = List.replicate 4200 'b' ++ ['a'] := rfl

theorem lower_longText : (lowerStr longTextC7).data = List.replicate 4200 'b' ++ ['a'] := by
  show longTextC7.data.map Char.toLower = _
  rw [longText_data, List.map_append, List.map_replicate]
  rw [show Char.toLower 'b' = 'b' from rfl, show List.map Char.toLower ['a'] = ['a'] from rfl]

theorem longText_length : longTextC7.length = 4201 := by
  show longTextC7.data.length = 4201
  rw [longText_data, List.length_append, List.length_replicate]
  rfl

/-- C7 counterexample data: an exact text match in a 4201-character field
scores 28.99, strictly below the fuzzy score 30 of a two-word query whose
words are both present; so the fuzzy band is not strictly below every
exact-match score. -/
theorem fuzzy_vs_exact_cex :
    strIncludes (lowerStr longTextC7) (lowerStr "a") = true
      ∧ strIncludes (lowerStr "y x") (lowerStr "x y") = false
      ∧ calculateRelevanceScore "a" longTextC7 "episode_text" = 2899/100
      ∧ calculateRelevanceScore "x y" "y x" "episode_text" = 30
      ∧ calculateRelevanceScore "a" longTextC7 "episode_text"
          < calculateRelevanceScore "x y" "y x" "episode_text" := by
  have hinc : strIncludes (lowerStr longTextC7) (lowerStr "a") = true := by
    show listIncludes (lowerStr longTextC7).data (lowerStr "a").data = true
    rw [lower_longText, show (lowerStr "a").data = ['a'] from rfl]
    exact listIncludes_repl 4200
  have hcnt : countOccur (lowerStr longTextC7).data (lowerStr "a").data = 1 := by
    rw [lower_longText, show (lowerStr "a").data = ['a'] from rfl]
    show countOccAux (List.replicate 4200 'b' ++ ['a']).length
      (List.replicate 4200 'b' ++ ['a']) ['a'] = 1
    rw [List.length_append, List.length_replicate]
    exact countOccAux_repl 4200 (4200 + List.length ['a']) (by simp)
  have hexact : calculateRelevanceScore "a" longTextC7 "episode_text" = 2899/100 := by
    rw [relevance_exact_eq "a" longTextC7 "episode_text" hinc, hcnt, longText_length]
    rw [show baseScore "episode_text" = 60 from rfl]
    norm_num [min_def, max_def]
  have hsplit : splitOnSpace (lowerStr "x y") = ["x", "y"] := by decide
  have hfil : (["x", "y"] : List String).filter (fun w => strIncludes (lowerStr "y x") w)
      = ["x", "y"] := by decide
  have hfez : calculateRelevanceScore "x y" "y x" "episode_text" = 30 := by
    rw [relevance_fuzzy_eq "x y" "y x" "episode_text" (by decide) (by decide), hsplit, hfil]
    norm_num [jsRound]
  exact ⟨hinc, by decide, hexact, hfez, by rw [hexact, hfez]; norm_num⟩

/-! ### Relationship match order (C5) -/

/-- C5 (amended): the relationship description is checked before the type
label, so for every relationship where the query substring appears in both
the type label and the (non-empty) description, the recorded match is the
description branch's — its details quote the description and its score is
computed on the description field (the stored match-type label is
`relationship_description` in both branches). -/
theorem relMatch_description_first (q : String) (rel : Relationship)
    (hd : rel.description ≠ "")
    (h1 : strIncludes (lowerStr rel.description) (lowerStr q) = true)
    (h2 : strIncludes (lowerStr rel.relationship_type) (lowerStr q) = true) :
    relMatch q rel = some ("Found \"" ++ q ++ "\" in relationship: \"" ++ rel.entity1_name ++
        "\" " ++ rel.relationship_type ++ " \"" ++ rel.entity2_name ++ "\" - " ++
        rel.description,
      calculateRelevanceScore q rel.description "relationship_description") := by
  have hbeq : (rel.description == "") = false := beq_eq_false_iff_ne.mpr hd
  have h2' := h2
  simp only [relMatch, hbeq, h1, Bool.not_false, Bool.and_true, Bool.true_and, if_true]

theorem relMatch_description_first_witness :
    exRelBoth.description ≠ "" ∧
    strIncludes (lowerStr exRelBoth.description) (lowerStr "alpha") = true ∧
    strIncludes (lowerStr exRelBoth.relationship_type) (lowerStr "alpha") = true ∧
    relMatch "alpha" exRelBoth = some ("Found \"" ++ "alpha" ++ "\" in relationship: \"" ++
        exRelBoth.entity1_name ++ "\" " ++ exRelBoth.relationship_type ++ " \"" ++
        exRelBoth.entity2_name ++ "\" - " ++ exRelBoth.description,
      calculateRelevanceScore "alpha" exRelBoth.description "relationship_description") :=
  ⟨by decide, by decide, by decide,
    relMatch_description_first "alpha" exRelBoth (by decide) (by decide) (by decide)⟩

/-- C5 counterexample: on a relationship whose type label and description
both contain the query, the emitted row records the description match —
its score is the description field's score 100, not the type label's 90 —
so the type label is not checked first. -/
theorem rel_order_cex :
    searchInRelationships (some exSummaryC5) (some exGraphC5) "alpha" = [exRowC5]
      ∧ exRowC5.relevance_score
          = calculateRelevanceScore "alpha" exRelBoth.description "relationship_description"
      ∧ calculateRelevanceScore "alpha" exRelBoth.description "relationship_description" = 100
      ∧ calculateRelevanceScore "alpha" exRelBoth.relationship_type "relationship_description"
          = 90
      ∧ strIncludes (lowerStr exRelBoth.relationship_type) (lowerStr "alpha") = true := by
  have hdesc : calculateRelevanceScore "alpha" exRelBoth.description
      "relationship_description" = 100 := by
    have hinc : strIncludes (lowerStr exRelBoth.description) (lowerStr "alpha") = true := by
      decide
    rw [relevance_exact_eq "alpha" exRelBoth.description "relationship_description" hinc]
    rw [show countOccur (lowerStr exRelBoth.description).data (lowerStr "alpha").data = 2
      from by decide]
    rw [show exRelBoth.description.length = 24 from by decide]
    rw [show baseScore "relationship_description" = 80 from rfl]
    norm_num [min_def, max_def]
  have htype : calculateRelevanceScore "alpha" exRelBoth.relationship_type
      "relationship_description" = 90 := by
    have hinc : strIncludes (lowerStr exRelBoth.relationship_type) (lowerStr "alpha")
        = true := by decide
    rw [relevance_exact_eq "alpha" exRelBoth.relationship_type
      "relationship_description" hinc]
    rw [show countOccur (lowerStr exRelBoth.relationship_type).data
      (lowerStr "alpha").data = 1 from by decide]
    rw [show exRelBoth.relationship_type.length = 9 from by decide]
    rw [show baseScore "relationship_description" = 80 from rfl]
    norm_num [min_def, max_def]
  exact ⟨rfl, rfl, hdesc, htype, by decide⟩

/-! ### Aggregation: the dedup fold and the stable sort (C4, C6) -/

theorem insertByScore_perm (r : SearchResult) (l : List SearchResult) :
    (insertByScore r l).Perm (r :: l) := by
  induction l with
  | nil => exact List.Perm.refl _
  | cons x xs ih =>
    rw [insertByScore]
    split
    · exact List.Perm.refl _
    · exact (ih.cons x).trans (List.Perm.swap r x xs)

theorem sortByScoreDesc_perm (l : List SearchResult) : (sortByScoreDesc l).Perm l := by
  induction l with
  | nil => exact List.Perm.refl _
  | cons x xs ih => exact (insertByScore_perm x (sortByScoreDesc xs)).trans (ih.cons x)

theorem eq_of_nodup_key {m : List SearchResult}
    (hnd : (m.map fun t => t.episode_id).Nodup) {a b : SearchResult}
    (ha : a ∈ m) (hb : b ∈ m) (hk : a.episode_id = b.episode_id) : a = b :=
  List.inj_on_of_nodup_map hnd ha hb hk

theorem dedupStep_inv (m : List SearchResult) (r : SearchResult)
    (processed : List SearchResult) (h : dedupInv processed m) :
    dedupInv (processed ++ [r]) (dedupStep m r) := by
  obtain ⟨hnd, hmax, hcov⟩ := h
  cases hfind : m.find? (fun x => x.episode_id == r.episode_id) with
  | none =>
    have hstep : dedupStep m r = m ++ [r] := by
      unfold dedupStep
      rw [hfind]
    rw [hstep]
    have hnone : ∀ x ∈ m, x.episode_id ≠ r.episode_id := by
      intro x hx heq
      have := List.find?_eq_none.mp hfind x hx
      simp [heq] at this
    refine ⟨?_, ?_, ?_⟩
    · rw [List.map_append, List.nodup_append]
      refine ⟨hnd, List.nodup_singleton _, ?_⟩
      intro k hk hk'
      obtain ⟨x, hx, rfl⟩ := List.mem_map.mp hk
      simp only [List.map_cons, List.map_nil, List.mem_singleton] at hk'
      exact hnone x hx hk'
    · intro x hx
      rcases List.mem_append.mp hx with hx | hx
      · refine ⟨List.mem_append_left _ (hmax x hx).1, ?_⟩
        intro y hy heq
        rcases List.mem_append.mp hy with hy | hy
        · exact (hmax x hx).2 y hy heq
        · rw [List.mem_singleton.mp hy] at heq
          exact absurd heq.symm (hnone x hx)
      · rw [List.mem_singleton.mp hx]
        refine ⟨List.mem_append_right _ (List.mem_singleton.mpr rfl), ?_⟩
        intro y hy heq
        rcases List.mem_append.mp hy with hy | hy
        · obtain ⟨x', hx', hk'⟩ := hcov y hy
          exact absurd (hk'.trans heq) (hnone x' hx')
        · exact le_of_eq (by rw [List.mem_singleton.mp hy])
    · intro y hy
      rcases List.mem_append.mp hy with hy | hy
      · obtain ⟨x, hx, hk⟩ := hcov y hy
        exact ⟨x, List.mem_append_left _ hx, hk⟩
      · rw [List.mem_singleton.mp hy]
        exact ⟨r, List.mem_append_right _ (List.mem_singleton.mpr rfl), rfl⟩
  | some existing =>
    have hex_mem : existing ∈ m := List.mem_of_find?_eq_some hfind
    have hex_key : existing.episode_id = r.episode_id := by
      have := List.find?_some hfind
      simpa using this
    by_cases hgt : r.relevance_score > existing.relevance_score
    · have hstep : dedupStep m r
          = m.map fun x => if x.episode_id == r.episode_id then r else x := by
        unfold dedupStep
        rw [hfind]
        show (if r.relevance_score > existing.relevance_score
          then m.map fun x => if x.episode_id == r.episode_id then r else x else m) = _
        rw [if_pos hgt]
      rw [hstep]
      have hkeys : ((m.map fun x => if x.episode_id == r.episode_id then r else x).map
          fun t => t.episode_id) = m.map fun t => t.episode_id := by
        rw [List.map_map]
        apply List.map_congr_left
        intro x _
        by_cases hk : x.episode_id = r.episode_id
        · simp [Function.comp, hk]
        · simp [Function.comp, hk]
      refine ⟨by rw [hkeys]; exact hnd, ?_, ?_⟩
      · intro x' hx'
        obtain ⟨x, hx, hfx⟩ := List.mem_map.mp hx'
        by_cases hk : x.episode_id = r.episode_id
        · have hxe : x = existing := eq_of_nodup_key hnd hx hex_mem (hk.trans hex_key.symm)
          have hxr : x' = r := by
            rw [← hfx]
            simp [hk]
          subst hxr
          refine ⟨List.mem_append_right _ (List.mem_singleton.mpr rfl), ?_⟩
          intro y hy heq
          rcases List.mem_append.mp hy with hy | hy
          · have := (hmax existing hex_mem).2 y hy (heq.trans hex_key.symm)
            linarith
          · exact le_of_eq (by rw [List.mem_singleton.mp hy])
        · have hxx : x' = x := by
            rw [← hfx]
            simp [hk]
          rw [hxx]
          refine ⟨List.mem_append_left _ (hmax x hx).1, ?_⟩
          intro y hy heq
          rcases List.mem_append.mp hy with hy | hy
          · exact (hmax x hx).2 y hy heq
          · rw [List.mem_singleton.mp hy] at heq
            exact absurd heq.symm hk
      · intro y hy
        rcases List.mem_append.mp hy with hy | hy
        · obtain ⟨x, hx, hk⟩ := hcov y hy
          refine ⟨if x.episode_id == r.episode_id then r else x,
            List.mem_map.mpr ⟨x, hx, rfl⟩, ?_⟩
          by_cases hxk : x.episode_id = r.episode_id
          · simp [hxk]
            rw [← hk, hxk]
          · simp [hxk]
            exact hk
        · rw [List.mem_singleton.mp hy]
          refine ⟨if existing.episode_id == r.episode_id then r else existing,
            List.mem_map.mpr ⟨existing, hex_mem, rfl⟩, ?_⟩
          simp [hex_key]
    · have hstep : dedupStep m r = m := by
        unfold dedupStep
        rw [hfind]
        show (if r.relevance_score > existing.relevance_score
          then m.map fun x => if x.episode_id == r.episode_id then r else x else m) = _
        rw [if_neg hgt]
      rw [hstep]
      push_neg at hgt
      refine ⟨hnd, ?_, ?_⟩
      · intro x hx
        refine ⟨List.mem_append_left _ (hmax x hx).1, ?_⟩
        intro y hy heq
        rcases List.mem_append.mp hy with hy | hy
        · exact (hmax x hx).2 y hy heq
        · rw [List.mem_singleton.mp hy]
          have hxe : x = existing :=
            eq_of_nodup_key hnd hx hex_mem (by rw [← heq, List.mem_singleton.mp hy, hex_key])
          rw [hxe]
          exact hgt
      · intro y hy
        rcases List.mem_append.mp hy with hy | hy
        · exact hcov y hy
        · rw [List.mem_singleton.mp hy]
          exact ⟨existing, hex_mem, hex_key⟩

theorem dedup_foldl_inv (rs : List SearchResult) :
    ∀ m processed, dedupInv processed m →
      dedupInv (processed ++ rs) (rs.foldl dedupStep m) := by
  induction rs with
  | nil =>
    intro m p h
    simpa using h
  | cons r rs ih =>
    intro m p h
    have h2 := ih (dedupStep m r) (p ++ [r]) (dedupStep_inv m r p h)
    rw [List.foldl_cons]
    simpa [List.append_assoc] using h2

theorem dedupByEpisode_inv (rs : List SearchResult) : dedupInv rs (dedupByEpisode rs) := by
  have h0 : dedupInv [] [] := by
    refine ⟨List.nodup_nil, ?_, ?_⟩ <;> simp
  have := dedup_foldl_inv rs [] [] h0
  simpa [dedupByEpisode] using this

/-- C4 (amended): every episode id occurs in at most one row of the final
output, and each retained row is one of the combined per-kind candidate
rows scoring at least every candidate row with its episode id.  (Within
the entity and relationship passes only the first matching record per
episode produces a candidate row, so a later, higher-scoring match for the
same episode may be absent from the candidates altogether.) -/
theorem search_dedup_highest (summaryData : Option PodcastData)
    (entityData : Option GraphOutput) (searchTerm : String) :
    ((search summaryData entityData searchTerm).map fun r => r.episode_id).Nodup
    ∧ ∀ r ∈ search summaryData entityData searchTerm,
        r ∈ allCandidates summaryData entityData searchTerm
        ∧ ∀ r' ∈ allCandidates summaryData entityData searchTerm,
            r'.episode_id = r.episode_id → r'.relevance_score ≤ r.relevance_score := by
  obtain ⟨hnd, hmax, _⟩ := dedupByEpisode_inv (allCandidates summaryData entityData searchTerm)
  constructor
  · have hperm := (sortByScoreDesc_perm
      (dedupByEpisode (allCandidates summaryData entityData searchTerm))).map
      fun r => r.episode_id
    exact hperm.nodup_iff.mpr hnd
  · intro r hr
    have hr' : r ∈ dedupByEpisode (allCandidates summaryData entityData searchTerm) :=
      (sortByScoreDesc_perm _).mem_iff.mp hr
    exact hmax r hr'

theorem search_dedup_highest_witness :
    exRowC4 ∈ search (some exSummaryC4) (some exGraphC4) "alpha"
    ∧ (exRowC4 ∈ allCandidates (some exSummaryC4) (some exGraphC4) "alpha"
       ∧ ∀ r' ∈ allCandidates (some exSummaryC4) (some exGraphC4) "alpha",
           r'.episode_id = exRowC4.episode_id →
             r'.relevance_score ≤ exRowC4.relevance_score) := by
  have hmem : exRowC4 ∈ search (some exSummaryC4) (some exGraphC4) "alpha" := by
    rw [show search (some exSummaryC4) (some exGraphC4) "alpha" = [exRowC4] from rfl]
    exact List.mem_singleton.mpr rfl
  exact ⟨hmem,
    (search_dedup_highest (some exSummaryC4) (some exGraphC4) "alpha").2 exRowC4 hmem⟩

/-- C4 counterexample: the single output row for `ep1` carries the first
matching entity's context-match score 80, although another candidate match
for the same episode — the second entity's name match — would score 100;
so the retained row does not carry the highest-scoring match among all
candidate matches for that episode. -/
theorem search_dedup_cex :
    search (some exSummaryC4) (some exGraphC4) "alpha" = [exRowC4]
      ∧ exRowC4.relevance_score
          = calculateRelevanceScore "alpha" "alpha stuff etc" "entity_context"
      ∧ entityMatch "alpha" exEntityAlpha
          = some ("entity_name", "Found \"alpha\" in entity name: \"Alpha\" (person)",
              calculateRelevanceScore "alpha" "Alpha" "entity_name")
      ∧ calculateRelevanceScore "alpha" "alpha stuff etc" "entity_context" = 80
      ∧ calculateRelevanceScore "alpha" "Alpha" "entity_name" = 100
      ∧ calculateRelevanceScore "alpha" "alpha stuff etc" "entity_context"
          < calculateRelevanceScore "alpha" "Alpha" "entity_name" := by
  have hctx : calculateRelevanceScore "alpha" "alpha stuff etc" "entity_context" = 80 := by
    rw [relevance_exact_eq "alpha" "alpha stuff etc" "entity_context" (by decide)]
    rw [show countOccur (lowerStr "alpha stuff etc").data (lowerStr "alpha").data = 1
      from by decide]
    rw [show ("alpha stuff etc" : String).length = 15 from by decide]
    rw [show baseScore "entity_context" = 70 from rfl]
    norm_num [min_def, max_def]
  have hname : calculateRelevanceScore "alpha" "Alpha" "entity_name" = 100 := by
    rw [relevance_exact_eq "alpha" "Alpha" "entity_name" (by decide)]
    rw [show countOccur (lowerStr "Alpha").data (lowerStr "alpha").data = 1 from by decide]
    rw [show ("Alpha" : String).length = 5 from by decide]
    rw [show baseScore "entity_name" = 90 from rfl]
    norm_num [min_def, max_def]
  exact ⟨rfl, rfl, rfl, hctx, hname, by rw [hctx, hname]; norm_num⟩

/-! ### Empty query behaviour (C6) -/

theorem listIncludes_nil_pat (t : List Char) : listIncludes t [] = true := by
  cases t <;> rfl

theorem episodeMatch_empty (ep : Episode) :
    episodeMatch "" ep = some ("episode_title",
      "Found \"\" in episode title: \"" ++ ep.title ++ "\"",
      calculateRelevanceScore "" ep.title "episode_title") := by
  have hinc : strIncludes (lowerStr ep.title) (lowerStr "") = true := by
    show listIncludes (lowerStr ep.title).data (lowerStr "").data = true
    rw [show (lowerStr "").data = [] from rfl]
    exact listIncludes_nil_pat _
  simp [episodeMatch, hinc]

theorem searchInEpisodeText_empty_ne (s : PodcastData) (ed : Option GraphOutput)
    (h : s.episodes ≠ []) : searchInEpisodeText (some s) ed "" ≠ [] := by
  obtain ⟨e, rest, hrep⟩ := List.exists_cons_of_ne_nil h
  simp only [searchInEpisodeText]
  rw [hrep, List.filterMap_cons, episodeMatch_empty e]
  exact List.cons_ne_nil _ _

theorem dedupStep_ne_nil (m : List SearchResult) (r : SearchResult) (h : m ≠ []) :
    dedupStep m r ≠ [] := by
  cases hf : m.find? (fun x => x.episode_id == r.episode_id) with
  | none =>
    have hstep : dedupStep m r = m ++ [r] := by
      unfold dedupStep
      rw [hf]
    rw [hstep]
    simp
  | some existing =>
    by_cases hgt : r.relevance_score > existing.relevance_score
    · have hstep : dedupStep m r
          = m.map fun x => if x.episode_id == r.episode_id then r else x := by
        unfold dedupStep
        rw [hf]
        show (if r.relevance_score > existing.relevance_score
          then m.map fun x => if x.episode_id == r.episode_id then r else x else m) = _
        rw [if_pos hgt]
      rw [hstep]
      simpa using h
    · have hstep : dedupStep m r = m := by
        unfold dedupStep
        rw [hf]
        show (if r.relevance_score > existing.relevance_score
          then m.map fun x => if x.episode_id == r.episode_id then r else x else m) = _
        rw [if_neg hgt]
      rw [hstep]
      exact h

theorem foldl_dedupStep_ne_nil (rs : List SearchResult) :
    ∀ m, m ≠ [] → rs.foldl dedupStep m ≠ [] := by
  induction rs with
  | nil => intro m h; simpa using h
  | cons r rs ih =>
    intro m h
    rw [List.foldl_cons]
    exact ih (dedupStep m r) (dedupStep_ne_nil m r h)

theorem dedupByEpisode_ne_nil (rs : List SearchResult) (h : rs ≠ []) :
    dedupByEpisode rs ≠ [] := by
  obtain ⟨r, rest, hrep⟩ := List.exists_cons_of_ne_nil h
  unfold dedupByEpisode
  rw [hrep, List.foldl_cons]
  apply foldl_dedupStep_ne_nil
  show dedupStep [] r ≠ []
  unfold dedupStep
  simp

theorem sortByScoreDesc_ne_nil (l : List SearchResult) (h : l ≠ []) :
    sortByScoreDesc l ≠ [] := by
  intro hnil
  have hp := sortByScoreDesc_perm l
  rw [hnil] at hp
  exact h (List.Perm.nil_eq hp).symm

/-- C6 (amended): the empty query substring occurs in every episode title
(JS `includes` with the empty string is always true), so on any summary
with at least one episode the search output is non-empty — one row per
episode id — rather than the empty list. -/
theorem search_empty_query_nonempty (s : PodcastData) (ed : Option GraphOutput)
    (h : s.episodes ≠ []) : search (some s) ed "" ≠ [] := by
  unfold search
  apply sortByScoreDesc_ne_nil
  apply dedupByEpisode_ne_nil
  unfold allCandidates
  intro hnil
  rcases List.append_eq_nil.mp hnil with ⟨h1, _⟩
  rcases List.append_eq_nil.mp h1 with ⟨h2, _⟩
  exact searchInEpisodeText_empty_ne s ed h h2

theorem search_empty_query_nonempty_witness :
    exSummaryC6b.episodes ≠ [] ∧
    search (some exSummaryC6b) (some exGraphEmpty) "" ≠ [] :=
  ⟨by decide, search_empty_query_nonempty exSummaryC6b (some exGraphEmpty) (by decide)⟩

/-- C6 counterexample: on a one-episode corpus the empty query returns one
row (an `episode_title` match on the empty substring), not the empty list. -/
theorem search_empty_query_cex :
    search (some exSummaryC6) none "" = [exRowC6]
      ∧ search (some exSummaryC6) none "" ≠ [] := by
  refine ⟨rfl, ?_⟩
  rw [show search (some exSummaryC6) none "" = [exRowC6] from rfl]
  exact List.cons_ne_nil _ _

/-! ### Id-mapper priority (C8) -/

/-- C8: `findOrCreateEpisodeId` returns a previously assigned id by
trying, in priority order, the episode-number lookup, the source-URL
lookup, and the normalized-title lookup; the fresh id is returned only
when all three lookups miss. -/
theorem findOrCreate_priority (m : IdMaps) (ep : ParsedEpisode) (newId : String) :
    (∀ existingId, numHit m ep = some existingId →
        (findOrCreateEpisodeId m ep newId).1 = existingId)
    ∧ (numHit m ep = none → ∀ existingId, urlHit m ep = some existingId →
        (findOrCreateEpisodeId m ep newId).1 = existingId)
    ∧ (numHit m ep = none → urlHit m ep = none → ∀ existingId,
        titleHit m ep = some existingId →
        (findOrCreateEpisodeId m ep newId).1 = existingId)
    ∧ (numHit m ep = none → urlHit m ep = none → titleHit m ep = none →
        (findOrCreateEpisodeId m ep newId).1 = newId) := by
  unfold findOrCreateEpisodeId
  refine ⟨?_, ?_, ?_, ?_⟩
  · intro existingId h
    rw [h]
  · intro h1 existingId h2
    rw [h1, h2]
  · intro h1 h2 existingId h3
    rw [h1, h2, h3]
  · intro h1 h2 h3
    rw [h1, h2, h3]

theorem findOrCreate_priority_witness :
    numHit exIdMaps exParsedEp = some "id_num"
    ∧ (findOrCreateEpisodeId exIdMaps exParsedEp "fresh_id").1 = "id_num"
    ∧ numHit exIdMaps exParsedEpNew = none
    ∧ urlHit exIdMaps exParsedEpNew = none
    ∧ titleHit exIdMaps exParsedEpNew = none
    ∧ (findOrCreateEpisodeId exIdMaps exParsedEpNew "fresh_id").1 = "fresh_id" :=
  ⟨by decide,
    (findOrCreate_priority exIdMaps exParsedEp "fresh_id").1 "id_num" (by decide),
    by decide, by decide, by decide,
    (findOrCreate_priority exIdMaps exParsedEpNew "fresh_id").2.2.2
      (by decide) (by decide) (by decide)⟩

/-! ### Ingestion invariants (C9, C10) -/

theorem processEntities_episode_id (extracted : ExtractedData) (episodeId : String) :
    ∀ e ∈ processEntities extracted episodeId, e.episode_id = episodeId := by
  intro e he
  simp only [processEntities] at he
  obtain ⟨ed, _, hf⟩ := List.mem_filterMap.mp he
  split at hf
  · cases hf
  · have hme : mkEntity ed episodeId = e := Option.some.inj hf
    rw [← hme]
    rfl

theorem findEntityId_some (name : String) (entities : List Entity) (id : String)
    (h : findEntityId name entities = some id) :
    ∃ e ∈ entities, e.id = id ∧ lowerStr e.name = lowerStr name := by
  unfold findEntityId at h
  cases hf : entities.find? (fun e => lowerStr e.name == lowerStr name) with
  | none =>
    rw [hf] at h
    cases h
  | some e =>
    rw [hf] at h
    have hmem := List.mem_of_find?_eq_some hf
    have hname := List.find?_some hf
    exact ⟨e, hmem, Option.some.inj h, by simpa using hname⟩

/-- C9: every stored relationship's two entity ids resolve, by
case-insensitive name lookup, to entities extracted for the same episode;
a payload naming an unresolvable entity produces no stored relationship
(the containing function is total, so the drop is silent, never fatal). -/
theorem relationships_resolve (extracted : ExtractedData) (episodeId uuid : String) :
    ∀ rel ∈ (processExtractedEntities extracted episodeId uuid).2,
      (∃ e1 ∈ (processExtractedEntities extracted episodeId uuid).1,
          e1.id = rel.entity1_id ∧ lowerStr e1.name = lowerStr rel.entity1_name ∧
          e1.episode_id = episodeId)
      ∧ (∃ e2 ∈ (processExtractedEntities extracted episodeId uuid).1,
          e2.id = rel.entity2_id ∧ lowerStr e2.name = lowerStr rel.entity2_name ∧
          e2.episode_id = episodeId) := by
  intro rel hrel
  have hrel' : rel ∈ processRelationships extracted episodeId
      (processEntities extracted episodeId) uuid := hrel
  simp only [processRelationships] at hrel'
  obtain ⟨rd, _, hf⟩ := List.mem_filterMap.mp hrel'
  split at hf
  · cases hf
  · cases h1 : findEntityId rd.entity1_name (processEntities extracted episodeId) with
    | none =>
      rw [h1] at hf
      cases hf
    | some id1 =>
      cases h2 : findEntityId rd.entity2_name (processEntities extracted episodeId) with
      | none =>
        rw [h1, h2] at hf
        cases hf
      | some id2 =>
        rw [h1, h2] at hf
        have hrec := Option.some.inj hf
        obtain ⟨e1, he1m, he1id, he1name⟩ := findEntityId_some _ _ _ h1
        obtain ⟨e2, he2m, he2id, he2name⟩ := findEntityId_some _ _ _ h2
        constructor
        · refine ⟨e1, he1m, ?_, ?_, processEntities_episode_id _ _ e1 he1m⟩
          · rw [← hrec]
            exact he1id
          · rw [← hrec]
            exact he1name
        · refine ⟨e2, he2m, ?_, ?_, processEntities_episode_id _ _ e2 he2m⟩
          · rw [← hrec]
            exact he2id
          · rw [← hrec]
            exact he2name

theorem relationships_resolve_witness :
    exRelOut ∈ (processExtractedEntities exExtracted "ep_12345678" "uuuuuuuuuu").2
    ∧ ((∃ e1 ∈ (processExtractedEntities exExtracted "ep_12345678" "uuuuuuuuuu").1,
          e1.id = exRelOut.entity1_id ∧ lowerStr e1.name = lowerStr exRelOut.entity1_name ∧
          e1.episode_id = "ep_12345678")
       ∧ (∃ e2 ∈ (processExtractedEntities exExtracted "ep_12345678" "uuuuuuuuuu").1,
          e2.id = exRelOut.entity2_id ∧ lowerStr e2.name = lowerStr exRelOut.entity2_name ∧
          e2.episode_id = "ep_12345678")) := by
  have hmem : exRelOut ∈ (processExtractedEntities exExtracted "ep_12345678" "uuuuuuuuuu").2 := by
    rw [show (processExtractedEntities exExtracted "ep_12345678" "uuuuuuuuuu").2
      = [exRelOut] from rfl]
    exact List.mem_singleton.mpr rfl
  exact ⟨hmem,
    relationships_resolve exExtracted "ep_12345678" "uuuuuuuuuu" exRelOut hmem⟩

/-- C10: an entity payload is stored iff both its name and its type are
non-empty (truthy); for stored payloads an absent confidence score, or an
explicit 0, becomes the default `0.8`, while any other value is kept. -/
theorem entities_accepted_iff (extracted : ExtractedData) (episodeId : String) :
    (∀ ed ∈ extracted.entities, ed.name ≠ "" → ed.type ≠ "" →
        mkEntity ed episodeId ∈ processEntities extracted episodeId)
    ∧ (∀ e ∈ processEntities extracted episodeId,
        ∃ ed ∈ extracted.entities, ed.name ≠ "" ∧ ed.type ≠ "" ∧ e = mkEntity ed episodeId)
    ∧ (∀ ed : RawEntity, ed.confidence_score = none →
        (mkEntity ed episodeId).confidence_score = 8/10)
    ∧ (∀ ed : RawEntity, ed.confidence_score = some 0 →
        (mkEntity ed episodeId).confidence_score = 8/10)
    ∧ (∀ ed : RawEntity, ∀ c : ℚ, ed.confidence_score = some c → c ≠ 0 →
        (mkEntity ed episodeId).confidence_score = c) := by
  refine ⟨?_, ?_, ?_, ?_, ?_⟩
  · intro ed hmem hn ht
    simp only [processEntities]
    refine List.mem_filterMap.mpr ⟨ed, hmem, ?_⟩
    simp [hn, ht]
  · intro e he
    simp only [processEntities] at he
    obtain ⟨ed, hmem, hf⟩ := List.mem_filterMap.mp he
    split at hf
    · cases hf
    · rename_i hcond
      simp only [Bool.or_eq_true, decide_eq_true_eq, not_or] at hcond
      exact ⟨ed, hmem, hcond.1, hcond.2, (Option.some.inj hf).symm⟩
  · intro ed h
    simp only [mkEntity, h]
  · intro ed h
    simp [mkEntity, h]
  · intro ed c h hc
    simp only [mkEntity, h, if_neg hc]

theorem entities_accepted_iff_witness :
    (⟨"Amazon", "company", "retailer", true, none, none⟩ : RawEntity)
        ∈ exExtracted.entities
    ∧ ("Amazon" : String) ≠ ""
    ∧ ("company" : String) ≠ ""
    ∧ mkEntity ⟨"Amazon", "company", "retailer", true, none, none⟩ "ep_12345678"
        ∈ processEntities exExtracted "ep_12345678" := by
  refine ⟨?_, by decide, by decide, ?_⟩
  · rw [show exExtracted.entities = [⟨"Jeff Bezos", "person", "founder", false, none, none⟩,
      ⟨"", "person", "c", false, none, none⟩,
      ⟨"Amazon", "company", "retailer", true, none, none⟩] from rfl]
    simp
  · exact (entities_accepted_iff exExtracted "ep_12345678").1
      ⟨"Amazon", "company", "retailer", true, none, none⟩
      (by rw [show exExtracted.entities = [⟨"Jeff Bezos", "person", "founder", false,
        none, none⟩, ⟨"", "person", "c", false, none, none⟩,
        ⟨"Amazon", "company", "retailer", true, none, none⟩] from rfl]; simp)
      (by decide) (by decide)

end Founders
